import Mathlib

/-!
Verification of the json-parser repository: a shallow embedding of the
tokenizer (`generateStack`) and the recursive-descent parser (`parseStack`)
from `src/parser.js`, together with theorems settling the specification
claims about them.

Conventions of the embedding:
* JS strings are Lean `String`s; the tokenizer scans the character list.
* `tokens[index]` past the end of a JS array yields `undefined`; token
  access is therefore modelled as `Option String` with `none` for
  `undefined`.
* Thrown JS `Error`s become explicit error values.  The runtime
  `TypeError` raised by calling a method on `undefined` is a separate
  constructor from the deliberately thrown syntax errors.
* The mutually recursive parser closures are modelled as one fuel-indexed
  step function `parseRun`; fuel only bounds recursion depth, every real
  run terminates, and concrete evaluations use a generous fuel.
* JS numbers produced by `parseFloat` are kept abstract: a numeric value
  carries the raw token text (the numeric grammar decides acceptance).
-/

/-! ### Tokenizer (`generateStack` in src/parser.js) -/

/-- `structuralToken` array from the source: the six structural characters. -/
def structuralTokensL : List Char := ['\x7b', '\x7d', '[', ']', ':', ',']

/-- `whitespaces` array from the source. -/
def whitespacesL : List Char := ['\t', '\n', '\r', ' ']

/-- `escapeMap` object from the source: valid single-character escapes. -/
def escapeMap : Char → Option Char
  | 'n' => some '\n'
  | 't' => some '\t'
  | 'b' => some (Char.ofNat 8)
  | 'r' => some '\r'
  | 'f' => some (Char.ofNat 12)
  | '\\' => some '\\'
  | '\"' => some '\"'
  | '/' => some '/'
  | _ => none

/-- The character class `[0-9a-fA-F]` used by the unicode-escape regexes. -/
def isHexDigit (c : Char) : Bool :=
  ('0' ≤ c ∧ c ≤ '9') ∨ ('a' ≤ c ∧ c ≤ 'f') ∨ ('A' ≤ c ∧ c ≤ 'F')

/-- Numeric value of one hex digit (0 for non-digits, never used there). -/
def hexVal (c : Char) : Nat :=
  if '0' ≤ c ∧ c ≤ '9' then c.toNat - 48
  else if 'a' ≤ c ∧ c ≤ 'f' then c.toNat - 87
  else if 'A' ≤ c ∧ c ≤ 'F' then c.toNat - 55
  else 0

/-- `parseInt(hhhh, 16)` for the four hex digits of a `\uXXXX` escape. -/
def hex4 (a b c d : Char) : Nat :=
  ((hexVal a * 16 + hexVal b) * 16 + hexVal c) * 16 + hexVal d

/-- Characters removed by JS `String.prototype.trim` (the ones that can occur here). -/
def isJsSpaceChar (c : Char) : Bool :=
  c = ' ' ∨ c = '\t' ∨ c = '\n' ∨ c = '\r' ∨ c = Char.ofNat 11 ∨ c = Char.ofNat 12 ∨
    c = Char.ofNat 0xA0 ∨ c = Char.ofNat 0x2028 ∨ c = Char.ofNat 0x2029 ∨ c = Char.ofNat 0xFEFF

/-- JS `valueToken.trim()`. -/
def jsTrim (s : String) : String :=
  String.mk (((s.toList.dropWhile isJsSpaceChar).reverse.dropWhile isJsSpaceChar).reverse)

/-- Errors thrown by the tokenizer (`LexError`s in the specification). -/
inductive LexErr where
  /-- `Invalid Unicode escape: \u...` with the up-to-4 characters inspected. -/
  | invalidUnicode : String → LexErr
  /-- `Illegal escape sequence: \c`. -/
  | illegalEscape : Char → LexErr
  /-- `Control characters are not allowed in JSON strings`. -/
  | controlChar : LexErr
  /-- `Unterminated string in JSON`. -/
  | unterminated : LexErr

/-- `String.fromCharCode(parseInt(sequence, 16))` for the 4 characters after
a `\u` (only used when they are exactly 4 valid hex digits). -/
def uniChar (rest : List Char) : Char :=
  match rest.take 4 with
  | [a, b, c, d] => Char.ofNat (hex4 a b c d)
  | _ => ' '

/-- One-to-one embedding of the `for` loop of `generateStack`: processes the
remaining characters given the loop's locals — `skip` (characters still to
jump over after the `i += 4` of a resolved `\uXXXX` escape), `stack`
(emitted tokens), `vt` (the `valueToken` accumulation buffer), `sv` (the
`startValueToken` inside-an-open-string flag), `esc` (the `isEscaped`
flag).  Mirrors the branch order of the source: whitespace skip, unescaped
quote, inside-string handling (escape resolution, backslash,
control-character rejection, ordinary character), structural token flush,
buffer accumulation; at end of input an open string is the
unterminated-string error and a pending unquoted buffer is dropped (the
source never flushes it). -/
def scan : List Char → Nat → List String → String → Bool → Bool → Except LexErr (List String)
  | [], _, stack, _, sv, _ => if sv then .error .unterminated else .ok stack
  | _ :: rest, skip + 1, stack, vt, sv, esc => scan rest skip stack vt sv esc
  | c :: rest, 0, stack, vt, sv, esc =>
    if sv = false ∧ c ∈ whitespacesL then
      scan rest 0 stack vt sv esc
    else if c = '\"' ∧ esc = false then
      if sv = false then
        scan rest 0 stack "\"" true esc
      else
        scan rest 0 (stack ++ [vt.push '\"']) "" false esc
    else if sv then
      if esc then
        if (escapeMap c).isSome then
          scan rest 0 stack (vt.push ((escapeMap c).getD ' ')) sv false
        else if c = 'u' then
          if 4 ≤ rest.length ∧ (rest.take 4).all isHexDigit = true then
            scan rest 4 stack (vt.push (uniChar rest)) sv false
          else .error (.invalidUnicode (String.mk (rest.take 4)))
        else .error (.illegalEscape c)
      else if c = '\\' then
        scan rest 0 stack vt sv true
      else if c.toNat ≤ 31 then
        .error .controlChar
      else
        scan rest 0 stack (vt.push c) sv esc
    else if c ∈ structuralTokensL then
      scan rest 0 ((if vt ≠ "" then stack ++ [jsTrim vt] else stack) ++ [String.mk [c]]) "" sv esc
    else
      scan rest 0 stack (vt.push c) sv esc

/-- `generateStack(data)`: tokenize from the initial state (no pending skip,
no tokens, empty buffer, not inside a string, not escaped). -/
def generateStack (data : String) : Except LexErr (List String) :=
  scan data.toList 0 [] "" false false

/-! ### Parser (`parseStack` in src/parser.js) -/

/-- Errors raised during parsing.  `syntaxErr` embeds the `throw new Error(msg)`
statements of the source (the specification's `SyntaxError`s); `typeError`
embeds the JS runtime `TypeError` raised when a property of `undefined` is
read (not a deliberate throw of the source). -/
inductive PErr where
  | syntaxErr : String → PErr
  | typeError : String → PErr

/-- A parsed JSON value.  Numbers keep the raw token text: the source converts
with `parseFloat`, whose 64-bit float result is kept abstract here. -/
inductive JValue where
  | obj : List (String × JValue) → JValue
  | arr : List JValue → JValue
  | str : String → JValue
  | num : String → JValue
  | bool : Bool → JValue
  | null : JValue

/-- Result of a fuel-indexed parser run: `timeout` means the fuel ran out
(never the case for a real execution given enough fuel). -/
inductive PRes (α : Type) where
  | ok : α → PRes α
  | err : PErr → PRes α
  | timeout : PRes α

/-- JS `obj[key] = value` on the object literal being built: replace the value
in place if the key is present (JS objects keep first-insertion order for
string keys), otherwise append. -/
def insertKV : List (String × JValue) → String → JValue → List (String × JValue)
  | [], k, v => [(k, v)]
  | (k0, v0) :: rest, k, v =>
    if k0 = k then (k0, v) :: rest else (k0, v0) :: insertKV rest k v

/-- Key lookup in the built object (JS property read). -/
def lookupKV : List (String × JValue) → String → Option JValue
  | [], _ => none
  | (k0, v0) :: rest, k => if k0 = k then some v0 else lookupKV rest k

/-- JS `${x}` interpolation of a possibly-`undefined` token. -/
def optTokStr : Option String → String
  | none => "undefined"
  | some t => t

/-- `token.startsWith('"') && token.endsWith('"')` (also the effective content
of `parseString`'s `charAt` guard: on a 1-character `"` both are true). -/
def isQuotedTok (t : String) : Bool :=
  match t.toList with
  | [] => false
  | c :: cs => c = '\"' ∧ (c :: cs).getLastD ' ' = '\"'

/-- First regex pass of `parseString`:
`content.replace(/\\u([0-9a-fA-F]{4})/g, ...)`, a left-to-right
non-overlapping scan replacing `\uXXXX` by the corresponding code unit.  An
unmatched backslash is kept and scanning resumes at the next character.  The
`u` of a failed `\u` attempt cannot itself start a match (a match starts at
a backslash), so it is emitted directly and the scan resumes right after it;
when fewer than 4 characters follow a `\u` no later match fits in them
either, so that remainder is emitted verbatim. -/
def replaceUnicodePass : List Char → List Char
  | [] => []
  | '\\' :: 'u' :: rest1 =>
    let rescan := replaceUnicodePass rest1
    match rest1 with
    | h1 :: h2 :: h3 :: h4 :: rest2 =>
      if isHexDigit h1 ∧ isHexDigit h2 ∧ isHexDigit h3 ∧ isHexDigit h4 then
        Char.ofNat (hex4 h1 h2 h3 h4) :: replaceUnicodePass rest2
      else '\\' :: 'u' :: rescan
    | _ => '\\' :: 'u' :: rest1
  | '\\' :: rest => '\\' :: replaceUnicodePass rest
  | c :: rest => c :: replaceUnicodePass rest

/-- JS regex `.` (no `s` flag) rejects line terminators. -/
def isLineTerm (c : Char) : Bool :=
  c = '\n' ∨ c = '\r' ∨ c = Char.ofNat 0x2028 ∨ c = Char.ofNat 0x2029

/-- Second regex pass of `parseString`: `content.replace(/\\(.)/g, cb)` where
the callback maps through `escapeMap` and throws on any other escaped
character.  A backslash whose follower is a line terminator (or nothing) is
not matched by `\\(.)` and is kept; scanning then resumes at the follower,
which (being a line terminator, never a backslash) is emitted directly. -/
def unescapePass : List Char → Except PErr (List Char)
  | [] => .ok []
  | ['\\'] => .ok ['\\']
  | '\\' :: c :: rest2 =>
    if isLineTerm c then
      match unescapePass rest2 with
      | .ok tail => .ok ('\\' :: c :: tail)
      | .error e => .error e
    else
      match escapeMap c with
      | some e =>
        match unescapePass rest2 with
        | .ok tail => .ok (e :: tail)
        | .error er => .error er
      | none => .error (.syntaxErr (String.mk ['I','n','v','a','l','i','d',' ','e','s','c','a','p','e',' ','s','e','q','u','e','n','c','e',':',' ','\\',c]))
  | c :: rest =>
    match unescapePass rest with
    | .ok tail => .ok (c :: tail)
    | .error e => .error e

/-- `parseString()` of src/parser.js applied to `tokens[index]`: on
`undefined` the `token.charAt(0)` call is a runtime `TypeError`; otherwise
the delimiting quotes are stripped and the two regex replacement passes are
applied to the interior. -/
def parseStringTok : Option String → Except PErr String
  | none => .error (.typeError "Cannot read properties of undefined (reading \x27charAt\x27)")
  | some token =>
    if isQuotedTok token then
      match unescapePass (replaceUnicodePass token.toList.tail.dropLast) with
      | .ok cs => .ok (String.mk cs)
      | .error e => .error e
    else .error (.syntaxErr "Keys must be quoted")

/-- `[0-9]`, i.e. the regex class `\d`. -/
def isDigitCh (c : Char) : Bool := '0' ≤ c ∧ c ≤ '9'

/-- Integer part `(0|[1-9]\d*)` of the numeric token regex: consume it,
returning the rest, or fail. -/
def matchIntPart : List Char → Option (List Char)
  | [] => none
  | '0' :: r => some r
  | c :: r => if '1' ≤ c ∧ c ≤ '9' then some (r.dropWhile isDigitCh) else none

/-- Optional fraction `(\.\d+)?`: a dot must be followed by at least one digit
for the group to match; otherwise the group matches empty (and a stray dot is
left for the anchor to reject). -/
def matchFrac : List Char → Option (List Char)
  | '.' :: r => if (r.takeWhile isDigitCh).isEmpty then none else some (r.dropWhile isDigitCh)
  | r => some r

/-- Optional exponent `(e[+-]?\d+)?` with the `i` flag (so `E` too). -/
def matchExp : List Char → Option (List Char)
  | [] => some []
  | c :: r =>
    if c = 'e' ∨ c = 'E' then
      let r2 := match r with
        | s :: r3 => if s = '+' ∨ s = '-' then r3 else s :: r3
        | [] => []
      if (r2.takeWhile isDigitCh).isEmpty then none else some (r2.dropWhile isDigitCh)
    else some (c :: r)

/-- Full-match test of `/^-?(0|[1-9]\d*)(\.\d+)?(e[+-]?\d+)?$/i`, the numeric
token regex of `parseValue`. -/
def isNumTok (t : String) : Bool :=
  let l := match t.toList with
    | '-' :: r => r
    | l0 => l0
  match matchIntPart l with
  | none => false
  | some r1 =>
    match matchFrac r1 with
    | none => false
    | some r2 =>
      match matchExp r2 with
      | none => false
      | some r3 => r3.isEmpty

/-- Which recursive activation of the parser is running: `value` is a
`parseValue()` call at the current index; `objLoop`/`arrLoop` are the `while`
loops of `parseObject`/`parseArray` with their accumulated local state. -/
inductive PMode where
  | value : PMode
  | objLoop : List (String × JValue) → Bool → PMode
  | arrLoop : List JValue → Bool → PMode

/-- The body of one `parseValue()` activation: dispatch on `tokens[index]`
(`recur` is the next recursive layer; the JS closures mutate a shared
`index` and `depth`, threaded here as explicit results). -/
def parseValueBody (recur : PMode → List String → Nat → Int → PRes (JValue × Nat × Int))
    (tokens : List String) (i : Nat) (depth : Int) : PRes (JValue × Nat × Int) :=
  match tokens.get? i with
  | none => .err (.syntaxErr "Unexpected token: undefined")
  | some t =>
    if t = "\x7b" then
      recur (.objLoop [] true) tokens (i + 1) depth
    else if t = "[" then
      if depth + 1 ≥ 20 then .err (.syntaxErr "Maximum nesting depth of 20 exceeded")
      else recur (.arrLoop [] true) tokens (i + 1) (depth + 1)
    else if t = "true" then .ok (.bool true, i + 1, depth)
    else if t = "false" then .ok (.bool false, i + 1, depth)
    else if t = "null" then .ok (.null, i + 1, depth)
    else if isNumTok t then .ok (.num t, i + 1, depth)
    else if isQuotedTok t then
      match parseStringTok (some t) with
      | .ok sv => .ok (.str sv, i + 1, depth)
      | .error e => .err e
    else .err (.syntaxErr s!"Unexpected token: {t}")

/-- The body of one iteration of `parseObject`'s `while` loop (`obj` and
`expectingKey` are its locals), including the trailing-comma check and the
final `index++` when the loop exits on `}`. -/
def parseObjLoopBody (recur : PMode → List String → Nat → Int → PRes (JValue × Nat × Int))
    (obj : List (String × JValue)) (expectingKey : Bool)
    (tokens : List String) (i : Nat) (depth : Int) : PRes (JValue × Nat × Int) :=
  if tokens.get? i = some "\x7d" then
    if expectingKey ∧ obj.isEmpty = false then
      .err (.syntaxErr s!"Trailing comma in object at position {i}")
    else .ok (.obj obj, i + 1, depth)
  else if expectingKey then
    if tokens.get? i = some "," then
      .err (.syntaxErr s!"Unexpected comma at position {i}")
    else
      match parseStringTok (tokens.get? i) with
      | .error e => .err e
      | .ok key =>
        if tokens.get? (i + 1) = some ":" then
          match recur .value tokens (i + 2) depth with
          | .ok (v, i2, d2) => recur (.objLoop (insertKV obj key v) false) tokens i2 d2
          | .err e => .err e
          | .timeout => .timeout
        else .err (.syntaxErr s!"Expected \x27:\x27 after key at position {i + 1}")
  else
    if tokens.get? i = some "," then
      recur (.objLoop obj true) tokens (i + 1) depth
    else
      .err (.syntaxErr s!"Expected \x27,\x27 or \x27\x7d\x27 at position {i}, found \"{optTokStr (tokens.get? i)}\"")

/-- The body of one iteration of `parseArray`'s `while` loop (`arr` and
`expectingValue` are its locals), including the trailing-comma check and
the final `index++; depth--` with the (unreachable) negative-depth check
when the loop exits on `]`.  The `depth++` and maximum-depth check of
`parseArray` happen before the loop is entered, in `parseValueBody`. -/
def parseArrLoopBody (recur : PMode → List String → Nat → Int → PRes (JValue × Nat × Int))
    (arr : List JValue) (expectingValue : Bool)
    (tokens : List String) (i : Nat) (depth : Int) : PRes (JValue × Nat × Int) :=
  if tokens.get? i = some "]" then
    if expectingValue ∧ arr.isEmpty = false then
      .err (.syntaxErr s!"Trailing comma in array at position {i}")
    else
      if depth - 1 < 0 then
        .err (.syntaxErr s!"Unexpected closing bracket \x27]\x27 at position {i + 1}")
      else .ok (.arr arr, i + 1, depth - 1)
  else if expectingValue then
    if tokens.get? i = some "," then
      .err (.syntaxErr s!"Unexpected comma at position {i}")
    else
      match recur .value tokens i depth with
      | .ok (v, i2, d2) => recur (.arrLoop (arr ++ [v]) false) tokens i2 d2
      | .err e => .err e
      | .timeout => .timeout
  else
    if tokens.get? i = some "," then
      recur (.arrLoop arr true) tokens (i + 1) depth
    else
      .err (.syntaxErr s!"Expected \x27,\x27 or \x27]\x27 at position {i}, found \"{optTokStr (tokens.get? i)}\"")

/-- The shared-cursor recursive descent of `parseStack`, as one fuel-indexed
step function over the three activation bodies.  State: mode, token list,
cursor `index`, nesting `depth`. -/
def parseRun : Nat → PMode → List String → Nat → Int → PRes (JValue × Nat × Int)
  | 0, _, _, _, _ => .timeout
  | fuel + 1, mode, tokens, i, depth =>
    match mode with
    | .value => parseValueBody (parseRun fuel) tokens i depth
    | .objLoop obj expectingKey => parseObjLoopBody (parseRun fuel) obj expectingKey tokens i depth
    | .arrLoop arr expectingValue => parseArrLoopBody (parseRun fuel) arr expectingValue tokens i depth

/-- `primaryChecker(tokens)`: the root token must be `{` or `[`. -/
def primaryChecker (tokens : List String) : Except PErr Unit :=
  if tokens.get? 0 = some "\x7b" ∨ tokens.get? 0 = some "[" then .ok ()
  else .error (.syntaxErr "A JSON payload should be an object or array, not a string.")

/-- `parseStack(tokens)`: primary check, top-level `parseValue()`, then the
trailing-token and final depth checks. -/
def parseStack (tokens : List String) (fuel : Nat) : PRes JValue :=
  match primaryChecker tokens with
  | .error e => .err e
  | .ok _ =>
    match parseRun fuel .value tokens 0 0 with
    | .ok (v, i, d) =>
      if i < tokens.length then
        .err (.syntaxErr s!"Unexpected token after root value at position {i}: {optTokStr (tokens.get? i)}")
      else if d ≠ 0 then .err (.syntaxErr "Mismatched brackets or braces")
      else .ok v
    | .err e => .err e
    | .timeout => .timeout

/-! ### Inputs used by the claims -/

/-- Token sequence of an array nested `n` deep: `n` opening then `n` closing
brackets. -/
def arrNestTokens (n : Nat) : List String :=
  List.replicate n "[" ++ List.replicate n "]"

/-- The value of an array nested `n + 1` deep whose innermost array is empty. -/
def arrNestVal : Nat → JValue
  | 0 => .arr []
  | n + 1 => .arr [arrNestVal n]

/-- Token sequence of an object nested `n` deep under key `a`, innermost
object empty: `{"a":{"a":...{}...}}`. -/
def objNestTokens : Nat → List String
  | 0 => []
  | 1 => ["\x7b", "\x7d"]
  | n + 2 => ["\x7b", "\"a\"", ":"] ++ objNestTokens (n + 1) ++ ["\x7d"]

/-- The value of an object nested `n + 1` deep under key `a`. -/
def objNestVal : Nat → JValue
  | 0 => .obj []
  | n + 1 => .obj [("a", objNestVal n)]

/-! ### Claim theorems -/

/-- C5: a comma immediately preceding a closing brace/bracket with no
following element is rejected: the token sequences of the texts
`{"a":1,}` and `[1,2,]` fail with the trailing-comma syntax errors, while
those of `{"a":1}` and `[1,2]` parse successfully. -/
theorem c5_trailing_comma_rejection :
    generateStack "\x7b\"a\":1,\x7d" = .ok ["\x7b", "\"a\"", ":", "1", ",", "\x7d"]
    ∧ generateStack "[1,2,]" = .ok ["[", "1", ",", "2", ",", "]"]
    ∧ parseStack ["\x7b", "\"a\"", ":", "1", ",", "\x7d"] 100
        = .err (.syntaxErr "Trailing comma in object at position 5")
    ∧ parseStack ["[", "1", ",", "2", ",", "]"] 100
        = .err (.syntaxErr "Trailing comma in array at position 5")
    ∧ generateStack "\x7b\"a\":1\x7d" = .ok ["\x7b", "\"a\"", ":", "1", "\x7d"]
    ∧ generateStack "[1,2]" = .ok ["[", "1", ",", "2", "]"]
    ∧ parseStack ["\x7b", "\"a\"", ":", "1", "\x7d"] 100 = .ok (.obj [("a", .num "1")])
    ∧ parseStack ["[", "1", ",", "2", "]"] 100 = .ok (.arr [.num "1", .num "2"]) :=
  ⟨rfl, rfl, rfl, rfl, rfl, rfl, rfl, rfl⟩

/-- C7: input text that ends inside an open string literal fails in the
tokenizer with the unterminated-string `LexError` (a `LexErr`, not a parser
error): concretely for the text `{"a": "b`, and in general whenever the
scan exhausts its input with the inside-string flag still set. -/
theorem c7_unterminated_string :
    generateStack "\x7b\"a\": \"b" = .error .unterminated
    ∧ ∀ (skip : Nat) (stack : List String) (vt : String) (esc : Bool),
        scan [] skip stack vt true esc = .error .unterminated :=
  ⟨rfl, fun _ _ _ _ => rfl⟩

/-- C8: duplicate object keys keep the last written value: inserting a key
that is already present overwrites it in place (so the value looked up is
always the one inserted last), and the token sequence of `{"a":1,"a":2}`
parses to an object whose single entry maps `a` to `2`. -/
theorem c8_duplicate_keys_keep_last :
    (∀ (obj : List (String × JValue)) (k : String) (v : JValue),
        lookupKV (insertKV obj k v) k = some v)
    ∧ generateStack "\x7b\"a\":1,\"a\":2\x7d"
        = .ok ["\x7b", "\"a\"", ":", "1", ",", "\"a\"", ":", "2", "\x7d"]
    ∧ parseStack ["\x7b", "\"a\"", ":", "1", ",", "\"a\"", ":", "2", "\x7d"] 100
        = .ok (.obj [("a", .num "2")]) := by
  refine ⟨?_, rfl, rfl⟩
  intro obj k v
  induction obj with
  | nil => simp [insertKV, lookupKV]
  | cons hd tl ih =>
    obtain ⟨k0, v0⟩ := hd
    by_cases h : k0 = k
    · simp [insertKV, lookupKV, h]
    · simp [insertKV, lookupKV, h, ih]

/-- C1 (code defect): the parser does not return a string token's interior
as-is — `parseString` runs a second unescaping pass over it.  The valid
JSON text `{"k": "a\\b"}` tokenizes to a token whose interior holds the
already-resolved literal backslash (`a\b`), but parsing maps the `\b` pair
through the escape table again, so the result binds `k` to `a` followed by
a backspace (U+0008) instead of to `a\b`. -/
theorem c1_parser_reunescapes_literal_backslash :
    generateStack "\x7b\"k\": \"a\\\\b\"\x7d"
      = .ok ["\x7b", "\"k\"", ":", "\"a\\b\"", "\x7d"]
    ∧ parseStringTok (some "\"a\\b\"") = .ok "a\x08"
    ∧ parseStack ["\x7b", "\"k\"", ":", "\"a\\b\"", "\x7d"] 100
        = .ok (.obj [("k", .str "a\x08")]) :=
  ⟨rfl, rfl, rfl⟩

/-- C3 (code defect): on the single-token sequence `{` (a truncated object),
the parser reads past the end of the sequence: `parseString` receives
`undefined` and calling `charAt` on it raises a runtime `TypeError`, not a
`SyntaxError` describing the offending token. -/
theorem c3_truncated_object_raises_typeerror :
    generateStack "\x7b" = .ok ["\x7b"]
    ∧ parseStack ["\x7b"] 100
        = .err (.typeError "Cannot read properties of undefined (reading \x27charAt\x27)") :=
  ⟨rfl, rfl⟩

/-- C2 counterexample: object entries do not touch the nesting-depth
counter — an object nested 25 deep (well past the claimed maximum of 20)
parses successfully instead of failing with the nesting-depth error. -/
theorem c2_object_nesting_unbounded :
    parseStack (objNestTokens 25) 1000 = .ok (objNestVal 24) :=
  rfl

/-- C4 counterexample: the bare input text `"\n\tA"` does not parse to
a string — it tokenizes to a single string token, and the parser then
rejects it because the root token is not `{` or `[`. -/
theorem c4_bare_escape_string_rejected_at_root :
    generateStack "\"\\n\\t\\u0041\"" = .ok ["\"\n\tA\""]
    ∧ parseStack ["\"\n\tA\""] 100
        = .err (.syntaxErr "A JSON payload should be an object or array, not a string.") :=
  ⟨rfl, rfl⟩

/-- C6: parsing succeeds only when the first token is `{` or `[`; any other
first token (or an empty sequence) fails with the root-restriction syntax
error, while the same scalar nested inside an object parses with the value
preserved: `"just a string"` is rejected at top level but accepted inside
`{"x":"just a string"}`. -/
theorem c6_root_restriction :
    (∀ (tokens : List String) (fuel : Nat) (v : JValue),
        parseStack tokens fuel = .ok v →
        tokens.get? 0 = some "\x7b" ∨ tokens.get? 0 = some "[")
    ∧ (∀ (tokens : List String) (fuel : Nat),
        ¬(tokens.get? 0 = some "\x7b" ∨ tokens.get? 0 = some "[") →
        parseStack tokens fuel
          = .err (.syntaxErr "A JSON payload should be an object or array, not a string."))
    ∧ generateStack "\"just a string\"" = .ok ["\"just a string\""]
    ∧ parseStack ["\"just a string\""] 100
        = .err (.syntaxErr "A JSON payload should be an object or array, not a string.")
    ∧ generateStack "\x7b\"x\":\"just a string\"\x7d"
        = .ok ["\x7b", "\"x\"", ":", "\"just a string\"", "\x7d"]
    ∧ parseStack ["\x7b", "\"x\"", ":", "\"just a string\"", "\x7d"] 100
        = .ok (.obj [("x", .str "just a string")]) := by
  refine ⟨?_, ?_, rfl, rfl, rfl, rfl⟩
  · intro tokens fuel v h
    by_cases hc : tokens.get? 0 = some "\x7b" ∨ tokens.get? 0 = some "["
    · exact hc
    · exfalso
      simp only [List.get?_eq_getElem?] at hc
      simp [parseStack, primaryChecker, hc] at h
  · intro tokens fuel hc
    simp only [List.get?_eq_getElem?] at hc
    simp [parseStack, primaryChecker, hc]

/-- C6 witness: the general implication applied to the token sequence of
`[]`, whose parse succeeds. -/
theorem c6_root_restriction_witness :
    (["[", "]"] : List String).get? 0 = some "\x7b"
      ∨ (["[", "]"] : List String).get? 0 = some "[" :=
  c6_root_restriction.1 ["[", "]"] 100 (.arr []) rfl

/-- C10: an unescaped control character (U+0000 through U+001F) reached
inside an open string literal makes the tokenizer fail with the
control-character error (the character is never preserved into a token):
the scan step rejects it from any inside-string non-escaped state, and the
input text `"<U+0001>"` fails that way. -/
theorem c10_control_char_rejected :
    (∀ (c : Char) (rest : List Char) (stack : List String) (vt : String),
        c ≠ '\"' → c ≠ '\\' → c.toNat ≤ 31 →
        scan (c :: rest) 0 stack vt true false = .error .controlChar)
    ∧ generateStack "\"\x01\"" = .error .controlChar := by
  refine ⟨?_, rfl⟩
  intro c rest stack vt hq hb hc
  simp [scan, hq, hb, hc]

/-- C10 witness: the step theorem applied to U+0001 arriving right after an
opening quote. -/
theorem c10_control_char_rejected_witness :
    scan ['\x01', '\"'] 0 [] "\"" true false = .error .controlChar :=
  c10_control_char_rejected.1 '\x01' ['\"'] [] "\"" (by decide) (by decide) (by decide)

/-- C4: escape resolution in the tokenizer.  With an escape pending inside a
string, a character in the escape table is appended as its single-character
equivalent; `u` requires the next 4 characters to be hex digits, appends the
corresponding code unit and skips exactly those 4 characters, and fails
with the invalid-unicode `LexError` when fewer than 4 characters remain or
they are not all hex; any other escaped character fails with the
illegal-escape `LexError`.  The text `"\n\tA"` therefore tokenizes to
one string token containing newline, tab, `A`, and that token parses to
that string as a value inside an object root. -/
theorem c4_escape_resolution :
    (∀ (c e : Char) (rest : List Char) (stack : List String) (vt : String),
        escapeMap c = some e →
        scan (c :: rest) 0 stack vt true true = scan rest 0 stack (vt.push e) true false)
    ∧ (∀ (rest : List Char) (stack : List String) (vt : String),
        4 ≤ rest.length → (rest.take 4).all isHexDigit = true →
        scan ('u' :: rest) 0 stack vt true true = scan rest 4 stack (vt.push (uniChar rest)) true false)
    ∧ (∀ (h1 h2 h3 h4 : Char) (rest2 : List Char) (stack : List String) (vt : String),
        scan (h1 :: h2 :: h3 :: h4 :: rest2) 4 stack vt true false
          = scan rest2 0 stack vt true false)
    ∧ (∀ (rest : List Char) (stack : List String) (vt : String),
        ¬(4 ≤ rest.length ∧ (rest.take 4).all isHexDigit = true) →
        scan ('u' :: rest) 0 stack vt true true
          = .error (.invalidUnicode (String.mk (rest.take 4))))
    ∧ (∀ (c : Char) (rest : List Char) (stack : List String) (vt : String),
        escapeMap c = none → c ≠ 'u' →
        scan (c :: rest) 0 stack vt true true = .error (.illegalEscape c))
    ∧ generateStack "\"\\n\\t\\u0041\"" = .ok ["\"\n\tA\""]
    ∧ generateStack "\x7b\"x\": \"\\n\\t\\u0041\"\x7d"
        = .ok ["\x7b", "\"x\"", ":", "\"\n\tA\"", "\x7d"]
    ∧ parseStringTok (some "\"\n\tA\"") = .ok "\n\tA"
    ∧ parseStack ["\x7b", "\"x\"", ":", "\"\n\tA\"", "\x7d"] 100
        = .ok (.obj [("x", .str "\n\tA")]) := by
  refine ⟨?_, ?_, ?_, ?_, ?_, rfl, rfl, rfl, rfl⟩
  · intro c e rest stack vt h
    conv_lhs => rw [scan]
    simp [h]
  · intro rest stack vt h1 h2
    conv_lhs => rw [scan]
    simp [escapeMap, h1, h2]
  · intro h1 h2 h3 h4 rest2 stack vt
    rfl
  · intro rest stack vt h
    conv_lhs => rw [scan]
    rw [if_neg (by simp), if_neg (by simp), if_pos rfl, if_pos rfl,
      if_neg (by simp [escapeMap]), if_pos rfl, if_neg h]
  · intro c rest stack vt hmap hu
    conv_lhs => rw [scan]
    rw [if_neg (by simp), if_neg (by simp), if_pos rfl, if_pos rfl,
      if_neg (by simp [hmap]), if_neg hu]

/-- C4 witness: the table step applied to the escape pair `\n` arriving
inside an open string. -/
theorem c4_escape_resolution_witness :
    scan ['n'] 0 [] "\"" true true = scan [] 0 [] ("\"".push '\n') true false :=
  c4_escape_resolution.1 'n' '\n' [] [] "\"" rfl

/-- Helper: a successful run of `parseObject`'s loop always produces an
object value (used to show `parseValue` yields numbers only from the
numeric-regex branch). -/
theorem parseRun_objLoop_shape :
    ∀ (fuel : Nat) (tokens : List String) (i : Nat) (d : Int)
      (obj : List (String × JValue)) (ek : Bool) (r : JValue × Nat × Int),
      parseRun fuel (.objLoop obj ek) tokens i d = .ok r → ∃ m, r.1 = JValue.obj m := by
  intro fuel
  induction fuel with
  | zero =>
    intro tokens i d obj ek r h
    rw [parseRun] at h
    exact PRes.noConfusion h
  | succ fuel ih =>
    intro tokens i d obj ek r h
    rw [parseRun] at h
    unfold parseObjLoopBody at h
    repeat' split at h
    all_goals first
      | exact PRes.noConfusion h
      | (cases h; exact ⟨_, rfl⟩)
      | exact ih _ _ _ _ _ _ h

/-- Helper: a successful run of `parseArray`'s loop always produces an
array value. -/
theorem parseRun_arrLoop_shape :
    ∀ (fuel : Nat) (tokens : List String) (i : Nat) (d : Int)
      (arr : List JValue) (ev : Bool) (r : JValue × Nat × Int),
      parseRun fuel (.arrLoop arr ev) tokens i d = .ok r → ∃ l, r.1 = JValue.arr l := by
  intro fuel
  induction fuel with
  | zero =>
    intro tokens i d arr ev r h
    rw [parseRun] at h
    exact PRes.noConfusion h
  | succ fuel ih =>
    intro tokens i d arr ev r h
    rw [parseRun] at h
    unfold parseArrLoopBody at h
    repeat' split at h
    all_goals first
      | exact PRes.noConfusion h
      | (cases h; exact ⟨_, rfl⟩)
      | exact ih _ _ _ _ _ _ h

/-- C9: `parseValue` yields a numeric value exactly when the current token
matches the numeric regex `-?(0|[1-9]\d*)(\.\d+)?([eE][+-]?\d+)?` in full
(the value then carries that token, to be converted by `parseFloat`); the
leading-zero token `01` does not match and is rejected with the
unexpected-token syntax error. -/
theorem c9_numeric_token_grammar :
    (∀ (fuel : Nat) (tokens : List String) (i : Nat) (d : Int) (t : String),
        tokens.get? i = some t →
        ((∃ s j d2, parseRun (fuel + 1) .value tokens i d = .ok (.num s, j, d2))
            ↔ isNumTok t = true)
          ∧ (isNumTok t = true →
              parseRun (fuel + 1) .value tokens i d = .ok (.num t, i + 1, d)))
    ∧ isNumTok "01" = false
    ∧ generateStack "[01]" = .ok ["[", "01", "]"]
    ∧ parseStack ["[", "01", "]"] 100 = .err (.syntaxErr "Unexpected token: 01") := by
  refine ⟨?_, by decide, rfl, rfl⟩
  intro fuel tokens i d t ht
  have hnum : isNumTok t = true →
      parseRun (fuel + 1) .value tokens i d = .ok (.num t, i + 1, d) := by
    intro hn
    have h1 : t ≠ "\x7b" := by rintro rfl; exact absurd hn (by decide)
    have h2 : t ≠ "[" := by rintro rfl; exact absurd hn (by decide)
    have h3 : t ≠ "true" := by rintro rfl; exact absurd hn (by decide)
    have h4 : t ≠ "false" := by rintro rfl; exact absurd hn (by decide)
    have h5 : t ≠ "null" := by rintro rfl; exact absurd hn (by decide)
    rw [parseRun]
    unfold parseValueBody
    rw [ht]
    dsimp only
    rw [if_neg h1, if_neg h2, if_neg h3, if_neg h4, if_neg h5, if_pos hn]
  refine ⟨⟨?_, ?_⟩, hnum⟩
  · rintro ⟨s, j, d2, h⟩
    by_cases hn : isNumTok t = true
    · exact hn
    exfalso
    rw [parseRun] at h
    unfold parseValueBody at h
    rw [ht] at h
    dsimp only at h
    by_cases h1 : t = "\x7b"
    · rw [if_pos h1] at h
      obtain ⟨m, hm⟩ := parseRun_objLoop_shape fuel tokens (i + 1) d [] true _ h
      exact JValue.noConfusion hm
    rw [if_neg h1] at h
    by_cases h2 : t = "["
    · rw [if_pos h2] at h
      by_cases hd : (20 : Int) ≤ d + 1
      · rw [if_pos hd] at h
        exact PRes.noConfusion h
      · rw [if_neg hd] at h
        obtain ⟨l, hl⟩ := parseRun_arrLoop_shape fuel tokens (i + 1) (d + 1) [] true _ h
        exact JValue.noConfusion hl
    rw [if_neg h2] at h
    by_cases h3 : t = "true"
    · rw [if_pos h3] at h
      injection h with h9
      injection h9 with hv h9
      exact JValue.noConfusion hv
    rw [if_neg h3] at h
    by_cases h4 : t = "false"
    · rw [if_pos h4] at h
      injection h with h9
      injection h9 with hv h9
      exact JValue.noConfusion hv
    rw [if_neg h4] at h
    by_cases h5 : t = "null"
    · rw [if_pos h5] at h
      injection h with h9
      injection h9 with hv h9
      exact JValue.noConfusion hv
    rw [if_neg h5, if_neg hn] at h
    by_cases h6 : isQuotedTok t = true
    · rw [if_pos h6] at h
      split at h
      · injection h with h9
        injection h9 with hv h9
        exact JValue.noConfusion hv
      · exact PRes.noConfusion h
    · rw [if_neg h6] at h
      exact PRes.noConfusion h
  · intro hn
    exact ⟨t, i + 1, d, hnum hn⟩

/-- C9 witness: the numeric branch applied to the single-token sequence of
the token `42`. -/
theorem c9_numeric_token_grammar_witness :
    parseRun 5 .value ["42"] 0 0 = .ok (.num "42", 1, 0) :=
  (c9_numeric_token_grammar.1 4 ["42"] 0 0 "42" rfl).2 rfl

/-- Helper: if the next `m + 1` tokens are all `[`, a `parseValue` run at
depth `d` with `d + (m + 1) = 20` hits the maximum-nesting-depth error
(each array entry increments the depth and fails as soon as the incremented
depth reaches 20). -/
theorem parseRun_opens_maxdepth :
    ∀ (m : Nat) (tokens : List String) (i : Nat) (d : Int) (f : Nat),
      d + (m + 1) = 20 →
      (∀ j, j < m + 1 → tokens.get? (i + j) = some "[") →
      parseRun (f + 2 * (m + 1)) .value tokens i d
        = .err (.syntaxErr "Maximum nesting depth of 20 exceeded") := by
  intro m
  induction m with
  | zero =>
    intro tokens i d f hd hopen
    have ht : tokens.get? i = some "[" := by simpa using hopen 0 (by omega)
    have hfuel : f + 2 * 1 = (f + 1) + 1 := by ring
    rw [hfuel, parseRun]
    unfold parseValueBody
    rw [ht]
    dsimp only
    rw [if_neg (by decide), if_pos rfl, if_pos (by omega)]
  | succ m ih =>
    intro tokens i d f hd hopen
    have ht : tokens.get? i = some "[" := by simpa using hopen 0 (by omega)
    have ht1 : tokens.get? (i + 1) = some "[" := by
      have := hopen 1 (by omega)
      simpa using this
    have hfuel : f + 2 * (m + 1 + 1) = ((f + 2 * (m + 1)) + 1) + 1 := by ring
    rw [hfuel, parseRun]
    unfold parseValueBody
    rw [ht]
    dsimp only
    rw [if_neg (by decide), if_pos rfl, if_neg (by omega)]
    rw [parseRun]
    unfold parseArrLoopBody
    rw [if_neg (by rw [ht1]; simp), if_pos rfl, if_neg (by rw [ht1]; simp)]
    have hrec := ih tokens (i + 1) (d + 1) f (by omega) (fun j hj => by
      have h9 := hopen (j + 1) (by omega)
      rw [show i + 1 + j = i + (j + 1) from by omega]
      exact h9)
    rw [hrec]

/-- C2 (amended): only array entries touch the depth counter — entering an
array increments it and fails with the maximum-nesting-depth error as soon
as it reaches the fixed maximum 20, and leaving an array decrements it.
An array nested exactly to depth 19 parses successfully; any token
sequence opening 20 nested arrays (so an array nested to depth 20 or more)
fails with that error; object entries leave the counter unchanged, so
deeply nested objects (here 22 deep) still parse. -/
theorem c2_array_depth_limit :
    parseStack (arrNestTokens 19) 1000 = .ok (arrNestVal 18)
    ∧ (∀ (tokens : List String) (f : Nat),
        (∀ j, j < 20 → tokens.get? j = some "[") →
        parseStack tokens (f + 40)
          = .err (.syntaxErr "Maximum nesting depth of 20 exceeded"))
    ∧ parseStack (arrNestTokens 20) 1000
        = .err (.syntaxErr "Maximum nesting depth of 20 exceeded")
    ∧ parseStack (objNestTokens 22) 1000 = .ok (objNestVal 21) := by
  refine ⟨rfl, ?_, rfl, rfl⟩
  intro tokens f h
  have hroot : tokens.get? 0 = some "\x7b" ∨ tokens.get? 0 = some "[" :=
    Or.inr (by simpa using h 0 (by omega))
  have hrun := parseRun_opens_maxdepth 19 tokens 0 0 f (by omega) (fun j hj => by
    have h9 := h j (by omega)
    simpa using h9)
  unfold parseStack primaryChecker
  rw [if_pos hroot, show f + 40 = f + 2 * (19 + 1) from by ring, hrun]

/-- C2 witness: the general 20-opens part applied to twenty `[` tokens. -/
theorem c2_array_depth_limit_witness :
    parseStack (List.replicate 20 "[") (60 + 40)
      = .err (.syntaxErr "Maximum nesting depth of 20 exceeded") :=
  c2_array_depth_limit.2.1 (List.replicate 20 "[") 60 (by decide)
